import Mathlib

/-!
# Verification of the aria-cluster dispatcher's store and controllers

A shallow embedding of the dispatcher's data model and operations
(`src/common/models.py`, `src/dispatcher/database.py`,
`src/dispatcher/server.py`, `src/dispatcher/scheduler.py`,
`src/dispatcher/database_migration.py`), together with theorems about
the store invariants, assignment semantics, scheduler ordering, retry
controller, migration utility and API behaviour.

Python `datetime` instants are embedded as `Int` ticks (only their
ordering and differences matter to the code under study).  Python dicts
are embedded as association lists (`List (String × _)`), which preserve
Python's insertion-order semantics: setting an existing key keeps its
position, setting a new key appends, and deleting removes the binding.
`float` fields (`progress`) are inert data in every claim considered
here and are carried as `Int`.
-/

namespace Aria

/-- `TaskStatus` from `common/models.py`. -/
inductive TaskStatus where
  | pending
  | queued
  | downloading
  | completed
  | failed
  | canceled
deriving DecidableEq

/-- `TaskPriority` from `common/models.py` (LOW=1, NORMAL=2, HIGH=3, URGENT=4). -/
inductive TaskPriority where
  | low
  | normal
  | high
  | urgent
deriving DecidableEq

/-- The integer value of a `TaskPriority`. -/
def TaskPriority.toInt : TaskPriority → Int
  | .low => 1
  | .normal => 2
  | .high => 3
  | .urgent => 4

/-- `WorkerStatus` from `common/models.py`. -/
inductive WorkerStatus where
  | online
  | busy
  | offline
  | error
deriving DecidableEq

/-- The task `options` dict.  The only key the dispatcher core reads or
writes is `"retry_count"` (`scheduler._check_failed_tasks`); every other
entry is opaque pass-through data, kept in `other`. -/
structure TaskOptions where
  retry_count : Option Int := none
  other : List (String × String) := []
deriving DecidableEq

/-- `Task` from `common/models.py`.  `result` is an opaque JSON map. -/
structure Task where
  id : String
  url : String
  created_at : Int
  updated_at : Int
  status : TaskStatus := .pending
  priority : TaskPriority := .normal
  worker_id : Option String := none
  aria2_gid : Option String := none
  options : TaskOptions := {}
  progress : Int := 0
  download_speed : Option Int := none
  error_message : Option String := none
  result : Option (List (String × String)) := none
deriving DecidableEq

/-- `Worker` from `common/models.py`.  `capabilities`, `health_metrics`,
`error_history` and `performance_stats` are opaque data for the claims
studied here. -/
structure Worker where
  id : String
  hostname : String
  address : String
  port : Int
  status : WorkerStatus := .offline
  connected_at : Option Int := none
  last_heartbeat : Option Int := none
  capabilities : List (String × String) := []
  current_tasks : List String := []
  total_slots : Int := 5
  used_slots : Int := 0
  health_metrics : List (String × Int) := []
  error_history : List String := []
  performance_stats : List (String × Int) := []
deriving DecidableEq

/-- Python-dict lookup on an association list (first binding wins). -/
def lookupA {α : Type} (k : String) : List (String × α) → Option α
  | [] => none
  | (k', v) :: rest => if k' = k then some v else lookupA k rest

/-- Python-dict assignment `d[k] = v`: replace the first binding of `k`
in place, or append a new binding. -/
def setA {α : Type} (k : String) (v : α) : List (String × α) → List (String × α)
  | [] => [(k, v)]
  | (k', v') :: rest => if k' = k then (k, v) :: rest else (k', v') :: setA k v rest

/-- Python-dict deletion `del d[k]`: drop the first binding of `k`. -/
def eraseA {α : Type} (k : String) : List (String × α) → List (String × α)
  | [] => []
  | (k', v') :: rest => if k' = k then rest else (k', v') :: eraseA k rest

/-- The state of `MemoryDatabase` (`dispatcher/database.py`): the two
dicts `self.tasks` and `self.workers`. -/
structure Store where
  tasks : List (String × Task) := []
  workers : List (String × Worker) := []
deriving DecidableEq

/-- The empty store produced by `MemoryDatabase.__init__`. -/
def Store.empty : Store := {}

theorem lookupA_setA_self {α : Type} (k : String) (v : α) (l : List (String × α)) :
    lookupA k (setA k v l) = some v := by
  induction l with
  | nil => simp [setA, lookupA]
  | cons p rest ih =>
    obtain ⟨a, b⟩ := p
    by_cases h : a = k
    · simp [setA, h, lookupA]
    · simp [setA, h, lookupA, ih]

theorem lookupA_setA_ne {α : Type} {k k' : String} (h : k' ≠ k) (v : α)
    (l : List (String × α)) : lookupA k' (setA k v l) = lookupA k' l := by
  induction l with
  | nil => simp [setA, lookupA, Ne.symm h]
  | cons p rest ih =>
    obtain ⟨a, b⟩ := p
    by_cases ha : a = k
    · subst ha
      simp [setA, lookupA, Ne.symm h]
    · simp only [setA, if_neg ha, lookupA]
      by_cases ha' : a = k'
      · simp [ha']
      · simp [ha', ih]

theorem lookupA_eraseA_ne {α : Type} {k k' : String} (h : k' ≠ k)
    (l : List (String × α)) : lookupA k' (eraseA k l) = lookupA k' l := by
  induction l with
  | nil => simp [eraseA]
  | cons p rest ih =>
    obtain ⟨a, b⟩ := p
    by_cases ha : a = k
    · subst ha
      simp [eraseA, lookupA, Ne.symm h]
    · simp only [eraseA, if_neg ha, lookupA]
      by_cases ha' : a = k'
      · simp [ha']
      · simp [ha', ih]

theorem mem_setA {α : Type} {p : String × α} {k : String} {v : α}
    {l : List (String × α)} (hnd : (l.map Prod.fst).Nodup)
    (hp : p ∈ setA k v l) : p = (k, v) ∨ (p ∈ l ∧ p.1 ≠ k) := by
  induction l with
  | nil =>
    simp [setA] at hp
    exact Or.inl hp
  | cons q rest ih =>
    obtain ⟨a, b⟩ := q
    simp only [List.map_cons, List.nodup_cons] at hnd
    by_cases ha : a = k
    · subst ha
      simp only [setA, if_pos rfl] at hp
      rcases List.mem_cons.1 hp with h | h
      · exact Or.inl h
      · right
        refine ⟨List.mem_cons_of_mem _ h, ?_⟩
        intro hpk
        exact hnd.1 (hpk ▸ List.mem_map_of_mem Prod.fst h)
    · simp only [setA, if_neg ha] at hp
      rcases List.mem_cons.1 hp with h | h
      · subst h
        exact Or.inr ⟨List.mem_cons_self _ _, ha⟩
      · rcases ih hnd.2 h with h' | h'
        · exact Or.inl h'
        · exact Or.inr ⟨List.mem_cons_of_mem _ h'.1, h'.2⟩

theorem mem_eraseA {α : Type} {p : String × α} {k : String}
    {l : List (String × α)} (hp : p ∈ eraseA k l) : p ∈ l := by
  induction l with
  | nil => simp [eraseA] at hp
  | cons q rest ih =>
    obtain ⟨a, b⟩ := q
    by_cases ha : a = k
    · simp only [eraseA, if_pos ha] at hp
      exact List.mem_cons_of_mem _ hp
    · simp only [eraseA, if_neg ha] at hp
      rcases List.mem_cons.1 hp with h | h
      · exact h ▸ List.mem_cons_self _ _
      · exact List.mem_cons_of_mem _ (ih h)

theorem lookupA_mem {α : Type} {k : String} {v : α} {l : List (String × α)}
    (h : lookupA k l = some v) : (k, v) ∈ l := by
  induction l with
  | nil => simp [lookupA] at h
  | cons p rest ih =>
    obtain ⟨a, b⟩ := p
    by_cases ha : a = k
    · simp only [lookupA, if_pos ha] at h
      cases h
      exact ha ▸ List.mem_cons_self _ _
    · simp only [lookupA, if_neg ha] at h
      exact List.mem_cons_of_mem _ (ih h)

theorem lookupA_of_mem_nodup {α : Type} {k : String} {v : α}
    {l : List (String × α)} (hnd : (l.map Prod.fst).Nodup)
    (h : (k, v) ∈ l) : lookupA k l = some v := by
  induction l with
  | nil => simp at h
  | cons p rest ih =>
    obtain ⟨a, b⟩ := p
    simp only [List.map_cons, List.nodup_cons] at hnd
    rcases List.mem_cons.1 h with h' | h'
    · rw [Prod.mk.injEq] at h'
      simp [lookupA, h'.1, h'.2]
    · have ha : a ≠ k := by
        intro hak
        exact hnd.1 (hak ▸ List.mem_map_of_mem Prod.fst h')
      simp [lookupA, ha, ih hnd.2 h']

theorem keys_setA_nodup {α : Type} {k : String} {v : α}
    {l : List (String × α)} (hnd : (l.map Prod.fst).Nodup) :
    ((setA k v l).map Prod.fst).Nodup := by
  induction l with
  | nil => simp [setA]
  | cons p rest ih =>
    obtain ⟨a, b⟩ := p
    simp only [List.map_cons, List.nodup_cons] at hnd
    by_cases ha : a = k
    · subst ha
      simpa [setA, List.nodup_cons] using hnd
    · have hsub : ∀ x ∈ (setA k v rest).map Prod.fst, x = k ∨ x ∈ rest.map Prod.fst := by
        intro x hx
        rcases List.mem_map.1 hx with ⟨q, hq, hqx⟩
        rcases mem_setA hnd.2 hq with h' | h'
        · left
          rw [← hqx, h']
        · exact Or.inr (hqx ▸ List.mem_map_of_mem Prod.fst h'.1)
      simp only [setA, if_neg ha, List.map_cons, List.nodup_cons]
      refine ⟨?_, ih hnd.2⟩
      intro hmem
      rcases hsub _ hmem with h' | h'
      · exact ha h'
      · exact hnd.1 h'

theorem keys_eraseA_nodup {α : Type} {k : String}
    {l : List (String × α)} (hnd : (l.map Prod.fst).Nodup) :
    ((eraseA k l).map Prod.fst).Nodup := by
  induction l with
  | nil => simp [eraseA]
  | cons p rest ih =>
    obtain ⟨a, b⟩ := p
    simp only [List.map_cons, List.nodup_cons] at hnd
    by_cases ha : a = k
    · simpa [eraseA, ha] using hnd.2
    · simp only [eraseA, if_neg ha, List.map_cons, List.nodup_cons]
      refine ⟨?_, ih hnd.2⟩
      intro hmem
      rcases List.mem_map.1 hmem with ⟨q, hq, hqx⟩
      exact hnd.1 (hqx ▸ List.mem_map_of_mem Prod.fst (mem_eraseA hq))

/-- The keyword arguments of `MemoryDatabase.update_task` (`**kwargs`):
a field is patched when the corresponding entry is `some`.  An inner
`some none` sets a nullable field to Python `None`.  Keys without a
matching `Task` attribute are ignored by the source (`hasattr` guard)
and are not representable here. -/
structure TaskPatch where
  status : Option TaskStatus := none
  priority : Option TaskPriority := none
  worker_id : Option (Option String) := none
  aria2_gid : Option (Option String) := none
  options : Option TaskOptions := none
  progress : Option Int := none
  download_speed : Option (Option Int) := none
  error_message : Option (Option String) := none
  result : Option (Option (List (String × String))) := none
deriving DecidableEq

/-- The `setattr` loop of `MemoryDatabase.update_task`, followed by the
unconditional `task.updated_at = datetime.now()`. -/
def applyTaskPatch (t : Task) (p : TaskPatch) (now : Int) : Task :=
  { t with
    status := p.status.getD t.status
    priority := p.priority.getD t.priority
    worker_id := p.worker_id.getD t.worker_id
    aria2_gid := p.aria2_gid.getD t.aria2_gid
    options := p.options.getD t.options
    progress := p.progress.getD t.progress
    download_speed := p.download_speed.getD t.download_speed
    error_message := p.error_message.getD t.error_message
    result := p.result.getD t.result
    updated_at := now }

/-- `MemoryDatabase.create_task(url, options)`: a fresh task with status
`pending` and default fields.  The `generate_id("task")` result is the
explicit `tid` argument; `Task`'s timestamp default factories run at
creation, embedded as `now`. -/
def create_task (s : Store) (tid url : String) (options : TaskOptions)
    (now : Int) : Task × Store :=
  let t : Task :=
    { id := tid, url := url, created_at := now, updated_at := now
      options := options, status := .pending }
  (t, { s with tasks := setA tid t s.tasks })

/-- `MemoryDatabase.update_task(task_id, **kwargs)`. -/
def update_task (s : Store) (tid : String) (p : TaskPatch) (now : Int) :
    Option Task × Store :=
  match lookupA tid s.tasks with
  | none => (none, s)
  | some t =>
    let t' := applyTaskPatch t p now
    (some t', { s with tasks := setA tid t' s.tasks })

/-- `MemoryDatabase.delete_task(task_id)`. -/
def delete_task (s : Store) (tid : String) : Bool × Store :=
  match lookupA tid s.tasks with
  | none => (false, s)
  | some _ => (true, { s with tasks := eraseA tid s.tasks })

/-- `MemoryDatabase.register_worker`: a fresh `online` worker with an
empty task list and zero used slots.  `generate_id("worker")` is the
explicit `wid` argument; `connected_at = last_heartbeat = now`. -/
def register_worker (s : Store) (wid hostname address : String) (port : Int)
    (capabilities : List (String × String)) (total_slots : Int) (now : Int) :
    Worker × Store :=
  let w : Worker :=
    { id := wid, hostname := hostname, address := address, port := port
      status := .online, connected_at := some now, last_heartbeat := some now
      capabilities := capabilities, total_slots := total_slots
      used_slots := 0, current_tasks := [] }
  (w, { s with workers := setA wid w s.workers })

/-- The keyword arguments of `MemoryDatabase.update_worker` (`**kwargs`),
with the same conventions as `TaskPatch`. -/
structure WorkerPatch where
  status : Option WorkerStatus := none
  connected_at : Option (Option Int) := none
  last_heartbeat : Option (Option Int) := none
  capabilities : Option (List (String × String)) := none
  current_tasks : Option (List String) := none
  total_slots : Option Int := none
  used_slots : Option Int := none
  health_metrics : Option (List (String × Int)) := none
  error_history : Option (List String) := none
  performance_stats : Option (List (String × Int)) := none
deriving DecidableEq

/-- The `setattr` loop of `MemoryDatabase.update_worker` (no timestamp is
bumped for workers). -/
def applyWorkerPatch (w : Worker) (p : WorkerPatch) : Worker :=
  { w with
    status := p.status.getD w.status
    connected_at := p.connected_at.getD w.connected_at
    last_heartbeat := p.last_heartbeat.getD w.last_heartbeat
    capabilities := p.capabilities.getD w.capabilities
    current_tasks := p.current_tasks.getD w.current_tasks
    total_slots := p.total_slots.getD w.total_slots
    used_slots := p.used_slots.getD w.used_slots
    health_metrics := p.health_metrics.getD w.health_metrics
    error_history := p.error_history.getD w.error_history
    performance_stats := p.performance_stats.getD w.performance_stats }

/-- `MemoryDatabase.update_worker(worker_id, **kwargs)`. -/
def update_worker (s : Store) (wid : String) (p : WorkerPatch) :
    Option Worker × Store :=
  match lookupA wid s.workers with
  | none => (none, s)
  | some w =>
    let w' := applyWorkerPatch w p
    (some w', { s with workers := setA wid w' s.workers })

/-- `MemoryDatabase.update_worker_heartbeat(worker_id)`: refresh
`last_heartbeat`; an `offline` worker additionally goes back `online`.
(`SQLiteDatabase.update_worker_heartbeat` has the same semantics.) -/
def update_worker_heartbeat (s : Store) (wid : String) (now : Int) :
    Option Worker × Store :=
  match lookupA wid s.workers with
  | none => (none, s)
  | some w =>
    let w' :=
      { w with
        last_heartbeat := some now
        status := if w.status = .offline then .online else w.status }
    (some w', { s with workers := setA wid w' s.workers })

/-- `MemoryDatabase.delete_worker(worker_id)`. -/
def delete_worker (s : Store) (wid : String) : Bool × Store :=
  match lookupA wid s.workers with
  | none => (false, s)
  | some _ => (true, { s with workers := eraseA wid s.workers })

/-- `MemoryDatabase.assign_task_to_worker(task_id, worker_id)`: fail when
the task or the worker is absent or `used_slots >= total_slots`;
otherwise point the task at the worker with status `queued`, append the
task id to `current_tasks`, increment `used_slots` and set the worker
`busy` when `used_slots >= total_slots` afterwards.  The embedding is a
single pure function, so the two record updates happen together, which
is the transactional behaviour both backends implement. -/
def assign_task_to_worker (s : Store) (tid wid : String) (now : Int) :
    Bool × Store :=
  match lookupA tid s.tasks, lookupA wid s.workers with
  | some task, some worker =>
    if worker.total_slots ≤ worker.used_slots then (false, s)
    else
      let task' := { task with worker_id := some wid, status := .queued, updated_at := now }
      let worker' :=
        { worker with
          current_tasks := worker.current_tasks ++ [tid]
          used_slots := worker.used_slots + 1
          status :=
            if worker.total_slots ≤ worker.used_slots + 1 then .busy else worker.status }
      (true, { s with tasks := setA tid task' s.tasks, workers := setA wid worker' s.workers })
  | _, _ => (false, s)

/-- `MemoryDatabase.unassign_task_from_worker(task_id)`: fail when the
task is absent or unassigned; clear the task's `worker_id`; when the
owning worker still exists, drop the first occurrence of the task id
from `current_tasks` (`list.remove` behind an `in` guard, which is
`List.erase`), set `used_slots = max(0, used_slots - 1)` and flip
`busy → online` when the new `used_slots` is below `total_slots`. -/
def unassign_task_from_worker (s : Store) (tid : String) (now : Int) :
    Bool × Store :=
  match lookupA tid s.tasks with
  | none => (false, s)
  | some task =>
    match task.worker_id with
    | none => (false, s)
    | some wid =>
      let task' := { task with worker_id := none, updated_at := now }
      match lookupA wid s.workers with
      | none => (true, { s with tasks := setA tid task' s.tasks })
      | some worker =>
        let used' := max 0 (worker.used_slots - 1)
        let worker' :=
          { worker with
            current_tasks := worker.current_tasks.erase tid
            used_slots := used'
            status :=
              if worker.status = .busy ∧ used' < worker.total_slots then .online
              else worker.status }
        (true,
          { s with tasks := setA tid task' s.tasks, workers := setA wid worker' s.workers })

/-- A concrete pending task used to instantiate theorems on concrete inputs. -/
def tA : Task :=
  { id := "t1", url := "http://example.com/a", created_at := 0, updated_at := 0 }

/-- A concrete online worker with two free slots. -/
def wA : Worker :=
  { id := "w1", hostname := "h1", address := "127.0.0.1", port := 6800
    status := .online, connected_at := some 0, last_heartbeat := some 0
    total_slots := 2, used_slots := 0 }

/-- A concrete store holding `tA` and `wA`. -/
def sA : Store := { tasks := [("t1", tA)], workers := [("w1", wA)] }

/-- C2: `assign_task_to_worker` returns `False` leaving the store
unchanged exactly when the task is absent, the worker is absent, or
`used_slots ≥ total_slots`; otherwise it returns `True` and atomically
sets the task's `worker_id` and status `queued`, appends the task id to
`current_tasks`, increments `used_slots`, and flips the worker to `busy`
exactly when the new `used_slots` reaches `total_slots`. -/
theorem assign_spec (s : Store) (tid wid : String) (now : Int) :
    ((assign_task_to_worker s tid wid now).1 = false ↔
      lookupA tid s.tasks = none ∨ lookupA wid s.workers = none ∨
        ∃ w, lookupA wid s.workers = some w ∧ w.total_slots ≤ w.used_slots)
    ∧ ((assign_task_to_worker s tid wid now).1 = false →
        (assign_task_to_worker s tid wid now).2 = s)
    ∧ (∀ t w, lookupA tid s.tasks = some t → lookupA wid s.workers = some w →
        w.used_slots < w.total_slots →
        (assign_task_to_worker s tid wid now).1 = true ∧
        lookupA tid (assign_task_to_worker s tid wid now).2.tasks =
          some { t with worker_id := some wid, status := .queued, updated_at := now } ∧
        lookupA wid (assign_task_to_worker s tid wid now).2.workers =
          some { w with
                 current_tasks := w.current_tasks ++ [tid]
                 used_slots := w.used_slots + 1
                 status :=
                   if w.used_slots + 1 = w.total_slots then .busy else w.status }) := by
  rcases h1 : lookupA tid s.tasks with _ | t
  · refine ⟨by simp [assign_task_to_worker, h1], ?_, ?_⟩
    · intro _
      rcases lookupA wid s.workers with _ | w <;> simp [assign_task_to_worker, h1]
    · intro t w ht _ _
      simp [h1] at ht
  · rcases h2 : lookupA wid s.workers with _ | w
    · refine ⟨by simp [assign_task_to_worker, h1, h2], ?_, ?_⟩
      · intro _
        simp [assign_task_to_worker, h1, h2]
      · intro t w _ hw _
        simp [h2] at hw
    · by_cases hcap : w.total_slots ≤ w.used_slots
      · have heq : assign_task_to_worker s tid wid now = (false, s) := by
          simp [assign_task_to_worker, h1, h2, hcap]
        refine ⟨?_, ?_, ?_⟩
        · rw [heq]
          simp only [true_iff]
          exact Or.inr (Or.inr ⟨w, rfl, hcap⟩)
        · intro _
          rw [heq]
        · intro t' w' ht hw hlt
          rw [Option.some.injEq] at ht hw
          subst ht
          subst hw
          omega
      · have heq : assign_task_to_worker s tid wid now =
            (true,
              { s with
                tasks := setA tid
                  { t with worker_id := some wid, status := .queued, updated_at := now }
                  s.tasks
                workers := setA wid
                  { w with
                    current_tasks := w.current_tasks ++ [tid]
                    used_slots := w.used_slots + 1
                    status :=
                      if w.total_slots ≤ w.used_slots + 1 then .busy else w.status }
                  s.workers }) := by
          simp [assign_task_to_worker, h1, h2, hcap]
        refine ⟨?_, ?_, ?_⟩
        · rw [heq]
          simp only [Bool.true_eq_false, false_iff]
          rintro (h | h | ⟨w', hw', hcap'⟩)
          · simp at h
          · simp at h
          · rw [Option.some.injEq] at hw'
            subst hw'
            exact absurd hcap' hcap
        · intro hfalse
          rw [heq] at hfalse
          simp at hfalse
        · intro t' w' ht hw hlt
          rw [Option.some.injEq] at ht hw
          subst ht
          subst hw
          have hbusy : (w.total_slots ≤ w.used_slots + 1) = (w.used_slots + 1 = w.total_slots) := by
            simp only [eq_iff_iff]
            constructor <;> intro h <;> omega
          refine ⟨by rw [heq], ?_, ?_⟩
          · rw [heq]
            simp only
            rw [lookupA_setA_self]
          · rw [heq]
            simp only
            rw [lookupA_setA_self, Option.some.injEq]
            by_cases hc : w.used_slots + 1 = w.total_slots
            · have hc' : w.total_slots ≤ w.used_slots + 1 := by omega
              simp [hc, hc']
            · have hc' : ¬ w.total_slots ≤ w.used_slots + 1 := by omega
              simp [hc, hc']

/-- Witness for `assign_spec`: on the concrete store `sA`, assigning
task `t1` to worker `w1` succeeds with the stated post-state. -/
theorem assign_spec_witness :
    (assign_task_to_worker sA "t1" "w1" 7).1 = true ∧
    lookupA "t1" (assign_task_to_worker sA "t1" "w1" 7).2.tasks =
      some { tA with worker_id := some "w1", status := .queued, updated_at := 7 } ∧
    lookupA "w1" (assign_task_to_worker sA "t1" "w1" 7).2.workers =
      some { wA with
             current_tasks := wA.current_tasks ++ ["t1"]
             used_slots := wA.used_slots + 1
             status :=
               if wA.used_slots + 1 = wA.total_slots then .busy else wA.status } :=
  (assign_spec sA "t1" "w1" 7).2.2 tA wA (by decide) (by decide) (by decide)

/-- C4: for a task with a non-null `worker_id`, `unassign_task_from_worker`
returns `True`, clears the task's `worker_id`, bumps only `updated_at`
(status and all other task fields unchanged), leaves all workers alone if
the owning worker is gone, and otherwise erases the task id from
`current_tasks`, decrements `used_slots` (the worker having at least one
used slot) and flips `busy → online` when dropping below capacity. -/
theorem unassign_spec (s : Store) (tid : String) (t : Task) (wid : String)
    (now : Int) (ht : lookupA tid s.tasks = some t)
    (hassigned : t.worker_id = some wid) :
    (unassign_task_from_worker s tid now).1 = true
    ∧ lookupA tid (unassign_task_from_worker s tid now).2.tasks =
        some { t with worker_id := none, updated_at := now }
    ∧ ({ t with worker_id := none, updated_at := now } : Task).status = t.status
    ∧ (lookupA wid s.workers = none →
        (unassign_task_from_worker s tid now).2.workers = s.workers)
    ∧ (∀ w, lookupA wid s.workers = some w → 0 < w.used_slots →
        lookupA wid (unassign_task_from_worker s tid now).2.workers =
          some { w with
                 current_tasks := w.current_tasks.erase tid
                 used_slots := w.used_slots - 1
                 status :=
                   if w.status = .busy ∧ w.used_slots - 1 < w.total_slots then .online
                   else w.status }) := by
  rcases h2 : lookupA wid s.workers with _ | w
  · refine ⟨?_, ?_, rfl, ?_, ?_⟩
    · simp [unassign_task_from_worker, ht, hassigned, h2]
    · simp [unassign_task_from_worker, ht, hassigned, h2, lookupA_setA_self]
    · intro _
      simp [unassign_task_from_worker, ht, hassigned, h2]
    · intro w hw _
      simp [h2] at hw
  · refine ⟨?_, ?_, rfl, ?_, ?_⟩
    · simp [unassign_task_from_worker, ht, hassigned, h2]
    · simp [unassign_task_from_worker, ht, hassigned, h2, lookupA_setA_self]
    · intro hnone
      simp at hnone
    · intro w' hw' hused
      rw [Option.some.injEq] at hw'
      subst hw'
      have hmax : max 0 (w.used_slots - 1) = w.used_slots - 1 := by omega
      simp only [unassign_task_from_worker, ht, hassigned, h2, hmax]
      rw [lookupA_setA_self]

/-- Witness for `unassign_spec`: unassigning the task after
`assign_spec_witness`'s assignment restores worker `w1`'s slot. -/
theorem unassign_spec_witness :
    (unassign_task_from_worker (assign_task_to_worker sA "t1" "w1" 7).2 "t1" 9).1 = true
    ∧ lookupA "t1"
        (unassign_task_from_worker (assign_task_to_worker sA "t1" "w1" 7).2 "t1" 9).2.tasks =
      some { tA with worker_id := none, status := .queued, updated_at := 9 } := by
  have h := unassign_spec (assign_task_to_worker sA "t1" "w1" 7).2 "t1"
    { tA with worker_id := some "w1", status := .queued, updated_at := 7 } "w1" 9
    (by decide) (by decide)
  exact ⟨h.1, h.2.1⟩

/-- C10: a successful `update_worker_heartbeat` refreshes
`last_heartbeat` and sets an `offline` worker back `online`; for any
other status only `last_heartbeat` changes. -/
theorem update_worker_heartbeat_spec (s : Store) (wid : String) (w : Worker)
    (now : Int) (hw : lookupA wid s.workers = some w) :
    (update_worker_heartbeat s wid now).1 =
      some { w with last_heartbeat := some now
                    status := if w.status = .offline then .online else w.status }
    ∧ lookupA wid (update_worker_heartbeat s wid now).2.workers =
      some { w with last_heartbeat := some now
                    status := if w.status = .offline then .online else w.status }
    ∧ (w.status = .offline →
        lookupA wid (update_worker_heartbeat s wid now).2.workers =
          some { w with last_heartbeat := some now, status := .online })
    ∧ (w.status ≠ .offline →
        lookupA wid (update_worker_heartbeat s wid now).2.workers =
          some { w with last_heartbeat := some now }) := by
  refine ⟨?_, ?_, ?_, ?_⟩
  · simp [update_worker_heartbeat, hw]
  · simp [update_worker_heartbeat, hw, lookupA_setA_self]
  · intro hoff
    simp [update_worker_heartbeat, hw, hoff, lookupA_setA_self]
  · intro hnoff
    simp [update_worker_heartbeat, hw, hnoff, lookupA_setA_self]

/-- Witness for `update_worker_heartbeat_spec`: a concrete offline worker
comes back online with its heartbeat refreshed. -/
theorem update_worker_heartbeat_spec_witness :
    lookupA "w1"
      (update_worker_heartbeat
        { tasks := [], workers := [("w1", { wA with status := .offline })] }
        "w1" 42).2.workers =
    some { wA with status := .online, last_heartbeat := some 42 } := by
  have h := update_worker_heartbeat_spec
    { tasks := [], workers := [("w1", { wA with status := .offline })] }
    "w1" { wA with status := .offline } 42 (by decide)
  have h3 := h.2.2.1 (by decide)
  exact h3

/-- The comparison key of `scheduler._process_pending_tasks`, line
`pending_tasks.sort(key=lambda t: t.created_at)`: ascending
`created_at` only. -/
def createdLe (a b : Task) : Prop := a.created_at ≤ b.created_at

instance : DecidableRel createdLe := fun a b =>
  inferInstanceAs (Decidable (a.created_at ≤ b.created_at))

instance : IsTotal Task createdLe := ⟨fun a b => Int.le_total a.created_at b.created_at⟩

instance : IsTrans Task createdLe := ⟨fun _ _ _ hab hbc => Int.le_trans hab hbc⟩

/-- The order in which `_process_pending_tasks` walks the pending tasks:
`pending_tasks.sort(key=lambda t: t.created_at)` and then a `for` loop
over the sorted list.  Python's `list.sort` is a stable sort, and a
stable sort's output is uniquely determined by the key, so it is
embedded as insertion sort (which is stable). -/
def schedulerPendingOrder (pending : List Task) : List Task :=
  List.insertionSort createdLe pending

/-- The ordering the specification prescribes instead: sort by
`(−priority, created_at)` — strictly higher priority first, ties broken
by older `created_at`.  This definition follows the spec's words, for
comparison with `schedulerPendingOrder`. -/
def specPriorityLe (a b : Task) : Prop :=
  b.priority.toInt < a.priority.toInt ∨
    (a.priority.toInt = b.priority.toInt ∧ a.created_at ≤ b.created_at)

instance : DecidableRel specPriorityLe := fun _ _ =>
  inferInstanceAs (Decidable (_ ∨ _))

/-- The spec's prescribed consideration order (from its words, not the
source). -/
def specPendingOrder (pending : List Task) : List Task :=
  List.insertionSort specPriorityLe pending

/-- An old low-priority task. -/
def tLow : Task :=
  { id := "tL", url := "http://example.com/low", created_at := 0, updated_at := 0
    priority := .low }

/-- A newer urgent task. -/
def tUrgent : Task :=
  { id := "tU", url := "http://example.com/urgent", created_at := 1, updated_at := 1
    priority := .urgent }

/-- C3 counterexample: with a low-priority task created before an urgent
one, the scheduler considers the low-priority task first — the sort key
is `created_at` alone, so a strictly higher-priority task is not
considered before lower-priority ones, contrary to the claim (the spec's
`(−priority, created_at)` order would put the urgent task first). -/
theorem scheduler_order_ignores_priority :
    schedulerPendingOrder [tLow, tUrgent] = [tLow, tUrgent]
    ∧ tLow.priority.toInt < tUrgent.priority.toInt
    ∧ specPendingOrder [tLow, tUrgent] = [tUrgent, tLow] := by
  decide

/-- C3 amended: on every scheduler tick the pending tasks are offered to
workers in ascending `created_at` order (oldest first) — a permutation
of the pending set sorted by `created_at`; `priority` plays no role in
the order. -/
theorem scheduler_order_by_created_at (pending : List Task) :
    (schedulerPendingOrder pending).Sorted createdLe
    ∧ (schedulerPendingOrder pending).Perm pending :=
  ⟨List.sorted_insertionSort createdLe pending,
    List.perm_insertionSort createdLe pending⟩

/-- `TaskScheduler` configuration extracted in `__init__`:
`task_assignment.max_retries` (default 3) and `task_assignment.retry_delay`
(default 300 seconds). -/
structure SchedConfig where
  max_retries : Int := 3
  retry_delay : Int := 300
deriving DecidableEq

/-- `MemoryDatabase.get_tasks_by_status(status)`: the task values whose
status matches, in dict order. -/
def get_tasks_by_status (s : Store) (st : TaskStatus) : List Task :=
  (s.tasks.filter (fun p => p.2.status = st)).map Prod.snd

/-- One iteration of the `for task in failed_tasks` loop of
`TaskScheduler._check_failed_tasks`: skip the task when
`options.get("retry_count", 0)` has reached `max_retries` or fewer than
`retry_delay` seconds have passed since `updated_at`; otherwise patch it
back to `pending` with the retry count incremented and `worker_id`,
`aria2_gid`, `error_message` cleared (the fields passed to
`db.update_task`).  The eligibility test reads the snapshot `task`
object, as the source does. -/
def retry_step (now : Int) (cfg : SchedConfig) (st : Store) (task : Task) : Store :=
  if ¬ (task.options.retry_count.getD 0 < cfg.max_retries) then st
  else if now - task.updated_at < cfg.retry_delay then st
  else
    (update_task st task.id
      { status := some .pending
        options := some
          { task.options with retry_count := some (task.options.retry_count.getD 0 + 1) }
        worker_id := some none
        aria2_gid := some none
        error_message := some none } now).2

/-- `TaskScheduler._check_failed_tasks`: one pass of the retry
controller over the snapshot of `failed` tasks. -/
def check_failed_tasks (s : Store) (now : Int) (cfg : SchedConfig) : Store :=
  (get_tasks_by_status s .failed).foldl (retry_step now cfg) s

theorem update_task_lookup_ne {s : Store} {k tid : String} (h : k ≠ tid)
    (p : TaskPatch) (now : Int) :
    lookupA tid (update_task s k p now).2.tasks = lookupA tid s.tasks := by
  rcases hk : lookupA k s.tasks with _ | t
  · simp [update_task, hk]
  · simp [update_task, hk, lookupA_setA_ne (Ne.symm h)]

theorem retry_step_lookup_ne {tid : String} {q : Task} (hq : q.id ≠ tid)
    (now : Int) (cfg : SchedConfig) (st : Store) :
    lookupA tid (retry_step now cfg st q).tasks = lookupA tid st.tasks := by
  unfold retry_step
  by_cases h1 : ¬ (q.options.retry_count.getD 0 < cfg.max_retries)
  · simp [h1]
  · by_cases h2 : now - q.updated_at < cfg.retry_delay
    · simp [h1, h2]
    · simp only [h1, if_false, h2, if_true, if_neg]
      exact update_task_lookup_ne hq _ now

theorem retry_foldl_lookup_ne (now : Int) (cfg : SchedConfig) (tid : String) :
    ∀ (l : List Task) (st : Store), (∀ q ∈ l, q.id ≠ tid) →
      lookupA tid (l.foldl (retry_step now cfg) st).tasks = lookupA tid st.tasks := by
  intro l
  induction l with
  | nil =>
    intro st _
    rfl
  | cons q rest ih =>
    intro st hne
    have hq : q.id ≠ tid := hne q (List.mem_cons_self _ _)
    have hrest : ∀ x ∈ rest, x.id ≠ tid := fun x hx => hne x (List.mem_cons_of_mem _ hx)
    simp only [List.foldl_cons]
    rw [ih _ hrest, retry_step_lookup_ne hq]

theorem failed_ids_nodup {s : Store} (hnd : (s.tasks.map Prod.fst).Nodup)
    (hid : ∀ p ∈ s.tasks, p.2.id = p.1) :
    ((get_tasks_by_status s .failed).map Task.id).Nodup := by
  have hmapeq : (get_tasks_by_status s .failed).map Task.id =
      (s.tasks.filter (fun p => p.2.status = .failed)).map Prod.fst := by
    unfold get_tasks_by_status
    rw [List.map_map]
    apply List.map_congr_left
    intro p hp
    exact hid p (List.mem_of_mem_filter hp)
  rw [hmapeq]
  exact ((List.filter_sublist s.tasks).map Prod.fst).nodup hnd

theorem failed_mem_split {s : Store} {tid : String} {t : Task}
    (hnd : (s.tasks.map Prod.fst).Nodup)
    (hid : ∀ p ∈ s.tasks, p.2.id = p.1)
    (ht : lookupA tid s.tasks = some t) (hfailed : t.status = .failed) :
    t.id = tid ∧
    ∃ l₁ l₂, get_tasks_by_status s .failed = l₁ ++ t :: l₂ ∧
      (∀ q ∈ l₁, q.id ≠ tid) ∧ (∀ q ∈ l₂, q.id ≠ tid) := by
  have hmem : (tid, t) ∈ s.tasks := lookupA_mem ht
  have htid : t.id = tid := hid (tid, t) hmem
  have hmemf : t ∈ get_tasks_by_status s .failed := by
    unfold get_tasks_by_status
    exact List.mem_map_of_mem Prod.snd (List.mem_filter.2 ⟨hmem, by simp [hfailed]⟩)
  obtain ⟨l₁, l₂, hsplit⟩ := List.append_of_mem hmemf
  refine ⟨htid, l₁, l₂, hsplit, ?_, ?_⟩
  · intro q hq hqid
    have hnodup := failed_ids_nodup hnd hid
    rw [hsplit, List.map_append, List.map_cons] at hnodup
    have := (List.nodup_append.1 hnodup).2.2
    exact this (List.mem_map_of_mem Task.id hq) (by simp [htid, hqid])
  · intro q hq hqid
    have hnodup := failed_ids_nodup hnd hid
    rw [hsplit, List.map_append, List.map_cons] at hnodup
    have h2 := (List.nodup_append.1 hnodup).2.1
    rw [List.nodup_cons] at h2
    exact h2.1 (by
      have : q.id = t.id := by rw [hqid, htid]
      exact this ▸ List.mem_map_of_mem Task.id hq)

/-- C7: on a retry-controller pass, a `failed` task is reset to `pending`
with `options.retry_count` incremented (defaulting to 0 when absent) and
`worker_id`, `aria2_gid` (the spec's `engine_gid`) and `error_message`
cleared, exactly when its retry count is strictly below `max_retries`
and at least `retry_delay` seconds have passed since `updated_at`; a
failed task missing either condition is left completely unchanged. -/
theorem check_failed_tasks_spec (s : Store) (now : Int) (cfg : SchedConfig)
    (tid : String) (t : Task)
    (hnd : (s.tasks.map Prod.fst).Nodup)
    (hid : ∀ p ∈ s.tasks, p.2.id = p.1)
    (ht : lookupA tid s.tasks = some t)
    (hfailed : t.status = .failed) :
    (t.options.retry_count.getD 0 < cfg.max_retries →
      cfg.retry_delay ≤ now - t.updated_at →
      lookupA tid (check_failed_tasks s now cfg).tasks =
        some { t with
               status := .pending
               options :=
                 { t.options with retry_count := some (t.options.retry_count.getD 0 + 1) }
               worker_id := none
               aria2_gid := none
               error_message := none
               updated_at := now })
    ∧ (¬ (t.options.retry_count.getD 0 < cfg.max_retries ∧
            cfg.retry_delay ≤ now - t.updated_at) →
        lookupA tid (check_failed_tasks s now cfg).tasks = some t) := by
  obtain ⟨htid, l₁, l₂, hsplit, hne₁, hne₂⟩ := failed_mem_split hnd hid ht hfailed
  have hfold : check_failed_tasks s now cfg =
      l₂.foldl (retry_step now cfg) (retry_step now cfg (l₁.foldl (retry_step now cfg) s) t) := by
    unfold check_failed_tasks
    rw [hsplit, List.foldl_append, List.foldl_cons]
  have hst₁ : lookupA tid (l₁.foldl (retry_step now cfg) s).tasks = some t := by
    rw [retry_foldl_lookup_ne now cfg tid l₁ s hne₁, ht]
  constructor
  · intro hretries hdelay
    have hstep : retry_step now cfg (l₁.foldl (retry_step now cfg) s) t =
        (update_task (l₁.foldl (retry_step now cfg) s) tid
          { status := some .pending
            options :=
              some { t.options with retry_count := some (t.options.retry_count.getD 0 + 1) }
            worker_id := some none
            aria2_gid := some none
            error_message := some none } now).2 := by
      unfold retry_step
      rw [htid]
      have h2 : ¬ (now - t.updated_at < cfg.retry_delay) := by omega
      simp [hretries, h2]
    rw [hfold, retry_foldl_lookup_ne now cfg tid l₂ _ hne₂, hstep]
    simp [update_task, hst₁, applyTaskPatch, lookupA_setA_self]
  · intro hnot
    have hstep : retry_step now cfg (l₁.foldl (retry_step now cfg) s) t =
        l₁.foldl (retry_step now cfg) s := by
      unfold retry_step
      by_cases h1 : t.options.retry_count.getD 0 < cfg.max_retries
      · have h2 : now - t.updated_at < cfg.retry_delay := by
          rcases not_and_or.1 hnot with h | h
          · exact absurd h1 h
          · omega
        simp [h1, h2]
      · simp [h1]
    rw [hfold, retry_foldl_lookup_ne now cfg tid l₂ _ hne₂, hstep, hst₁]

/-- A concrete failed task with one recorded retry. -/
def tFailed : Task :=
  { id := "tF", url := "http://example.com/f", created_at := 0, updated_at := 100
    status := .failed, options := { retry_count := some 1 }
    error_message := some "boom", worker_id := none }

/-- A concrete store with `tFailed` alongside the completed task used in
the C6 theorems. -/
def tDone : Task :=
  { id := "tC", url := "http://example.com/c", created_at := 0, updated_at := 0
    status := .completed }

/-- Store fixture for the retry-controller theorems. -/
def sRetry : Store := { tasks := [("tC", tDone), ("tF", tFailed)], workers := [] }

/-- Witness for `check_failed_tasks_spec`: in `sRetry` at time 500 with
the default configuration, `tF` is retried — back to `pending` with
`retry_count = 2` and its error cleared. -/
theorem check_failed_tasks_spec_witness :
    lookupA "tF" (check_failed_tasks sRetry 500 {}).tasks =
      some { tFailed with
             status := .pending
             options := { tFailed.options with retry_count := some 2 }
             worker_id := none
             aria2_gid := none
             error_message := none
             updated_at := 500 } :=
  (check_failed_tasks_spec sRetry 500 {} "tF" tFailed (by decide) (by decide)
    (by decide) (by decide)).1 (by decide) (by decide)

/-- C6 counterexample: terminal statuses are not sticky.  The store's
`update_task` (reached by `PUT /tasks/{id}`) applies any requested
status: patching the `completed` task `tC` to `pending` succeeds, so an
operation of the system does change a terminal task's status. -/
theorem terminal_status_not_sticky :
    tDone.status = .completed ∧
    (update_task { tasks := [("tC", tDone)], workers := [] } "tC"
        { status := some .pending } 5).1.map Task.status = some .pending := by
  decide

/-- C6 amended: the store itself does not enforce stickiness —
`update_task` (via `PUT /tasks/{id}`) can move a `completed` task to any
status — but the retry controller touches only `failed` tasks: a task
that is `completed` or `canceled` is left completely unchanged by every
retry-controller pass, and `failed → pending` is the only transition the
retry controller performs. -/
theorem retry_pass_preserves_terminal (s : Store) (now : Int) (cfg : SchedConfig)
    (tid : String) (t : Task)
    (hnd : (s.tasks.map Prod.fst).Nodup)
    (hid : ∀ p ∈ s.tasks, p.2.id = p.1)
    (ht : lookupA tid s.tasks = some t)
    (hterm : t.status = .completed ∨ t.status = .canceled) :
    lookupA tid (check_failed_tasks s now cfg).tasks = some t := by
  have hne : ∀ q ∈ get_tasks_by_status s .failed, q.id ≠ tid := by
    intro q hq hqid
    unfold get_tasks_by_status at hq
    rcases List.mem_map.1 hq with ⟨p, hp, hps⟩
    have hpf := List.mem_filter.1 hp
    have hkey : p.1 = tid := by
      rw [← hid p hpf.1, hps, hqid]
    have : p.2 = t := by
      have hl := lookupA_of_mem_nodup hnd (hkey ▸ (Prod.mk.eta (p := p)) ▸ hpf.1)
      rw [ht, Option.some.injEq] at hl
      exact hl.symm
    have hfail : p.2.status = .failed := by
      have := hpf.2
      simpa using this
    rw [this] at hfail
    rcases hterm with h | h <;> rw [h] at hfail <;> cases hfail
  unfold check_failed_tasks
  rw [retry_foldl_lookup_ne now cfg tid _ s hne, ht]

/-- Witness for `retry_pass_preserves_terminal`: in `sRetry` the
completed task `tC` survives a retry pass untouched even though the
failed task `tF` is retried in the same pass. -/
theorem retry_pass_preserves_terminal_witness :
    lookupA "tC" (check_failed_tasks sRetry 500 {}).tasks = some tDone :=
  retry_pass_preserves_terminal sRetry 500 {} "tC" tDone (by decide) (by decide)
    (by decide) (Or.inl (by decide))

/-- The optional payload fields of a `heartbeat` frame
(`server.handle_worker_message`); a provided `status` has already been
validated against the `WorkerStatus` enum by the handler. -/
structure HeartbeatFrame where
  status : Option WorkerStatus := none
  used_slots : Option Int := none
  health_metrics : Option (List (String × Int)) := none
  performance_stats : Option (List (String × Int)) := none

/-- `handle_worker_message` for `action == "heartbeat"`: refresh the
heartbeat through `update_worker_heartbeat`, then apply whichever of
`status`, `used_slots`, `health_metrics`, `performance_stats` the frame
carried through `update_worker` (skipped when the frame carried none). -/
def handle_heartbeat (s : Store) (wid : String) (f : HeartbeatFrame) (now : Int) :
    Store :=
  let s₁ := (update_worker_heartbeat s wid now).2
  if f.status.isSome ∨ f.used_slots.isSome ∨ f.health_metrics.isSome ∨
      f.performance_stats.isSome then
    (update_worker s₁ wid
      { status := f.status, used_slots := f.used_slots
        health_metrics := f.health_metrics
        performance_stats := f.performance_stats }).2
  else s₁

/-- The payload fields of a `worker_update` frame
(`server.handle_worker_message`, `allowed_worker_fields`). -/
structure WorkerUpdateFrame where
  capabilities : Option (List (String × String)) := none
  total_slots : Option Int := none
  used_slots : Option Int := none

/-- `handle_worker_message` for `action == "worker_update"`: apply the
provided fields through `update_worker` (skipped when none present). -/
def handle_worker_update (s : Store) (wid : String) (f : WorkerUpdateFrame) :
    Store :=
  if f.capabilities.isSome ∨ f.total_slots.isSome ∨ f.used_slots.isSome then
    (update_worker s wid
      { capabilities := f.capabilities, total_slots := f.total_slots
        used_slots := f.used_slots }).2
  else s

/-- One application of a public operation from the list in claim C1:
`register_worker`, `assign_task_to_worker`, `unassign_task_from_worker`,
`update_worker`, `delete_task`, and the heartbeat / worker_update frame
handlers.  The `generate_id` result at registration is embedded as an
argument constrained to be fresh (uuid4 ids never collide with existing
worker ids or with worker ids recorded on tasks). -/
inductive ClaimStep : Store → Store → Prop where
  | register (s : Store) (wid hostname address : String) (port : Int)
      (caps : List (String × String)) (slots : Int) (now : Int)
      (hfresh : lookupA wid s.workers = none)
      (hfresh' : ∀ p ∈ s.tasks, p.2.worker_id ≠ some wid) :
      ClaimStep s (register_worker s wid hostname address port caps slots now).2
  | assign (s : Store) (tid wid : String) (now : Int) :
      ClaimStep s (assign_task_to_worker s tid wid now).2
  | unassign (s : Store) (tid : String) (now : Int) :
      ClaimStep s (unassign_task_from_worker s tid now).2
  | update (s : Store) (wid : String) (p : WorkerPatch) :
      ClaimStep s (update_worker s wid p).2
  | deleteTask (s : Store) (tid : String) :
      ClaimStep s (delete_task s tid).2
  | heartbeatFrame (s : Store) (wid : String) (f : HeartbeatFrame) (now : Int) :
      ClaimStep s (handle_heartbeat s wid f now)
  | workerUpdateFrame (s : Store) (wid : String) (f : WorkerUpdateFrame) :
      ClaimStep s (handle_worker_update s wid f)

/-- Reachability from the empty store by the operations claim C1 names. -/
def ClaimReachable (s : Store) : Prop :=
  Relation.ReflTransGen ClaimStep Store.empty s

/-- The capacity invariant of claim C1: every stored worker's
`used_slots` equals the number of entries of `current_tasks` and is at
most `total_slots`. -/
def capacityInv (s : Store) : Prop :=
  ∀ p ∈ s.workers,
    p.2.used_slots = (p.2.current_tasks.length : Int) ∧
    p.2.used_slots ≤ p.2.total_slots

instance capacityInv.decidable (s : Store) : Decidable (capacityInv s) := by
  unfold capacityInv
  infer_instance

/-- A worker registered with five slots, then told `used_slots = 3` by a
direct `update_worker` patch (as a `worker_update` or `heartbeat` frame
does). -/
def sOverwrite : Store :=
  (update_worker (register_worker Store.empty "w1" "h1" "10.0.0.1" 6800 [] 5 0).2
    "w1" { used_slots := some 3 }).2

/-- C1 counterexample: the state reached from the empty store by
`register_worker` followed by `update_worker(used_slots=3)` — both on
the claim's operation list — violates the capacity invariant: the
worker has `used_slots = 3` but an empty `current_tasks`. -/
theorem capacity_invariant_broken_by_update_worker :
    ClaimReachable sOverwrite ∧ ¬ capacityInv sOverwrite := by
  constructor
  · exact Relation.ReflTransGen.tail
      (Relation.ReflTransGen.single
        (ClaimStep.register Store.empty "w1" "h1" "10.0.0.1" 6800 [] 5 0
          (by decide) (by decide)))
      (ClaimStep.update _ "w1" { used_slots := some 3 })
  · decide

/-- The slot-bookkeeping operations, under which the capacity invariant
is inductive: task/worker creation and deletion, assignment,
unassignment and plain heartbeat refreshes.  `update_worker` (and the
frame handlers built on it) is excluded — it overwrites `used_slots`,
`total_slots` or `current_tasks` wholesale — and registration is
restricted to a nonnegative `total_slots`.  `generate_id` freshness is
explicit, as in `ClaimStep`. -/
inductive SlotStep : Store → Store → Prop where
  | createTask (s : Store) (tid url : String) (options : TaskOptions) (now : Int)
      (hfresh : lookupA tid s.tasks = none) :
      SlotStep s (create_task s tid url options now).2
  | deleteTask (s : Store) (tid : String) :
      SlotStep s (delete_task s tid).2
  | register (s : Store) (wid hostname address : String) (port : Int)
      (caps : List (String × String)) (slots : Int) (now : Int)
      (hslots : 0 ≤ slots)
      (hfresh : lookupA wid s.workers = none)
      (hfresh' : ∀ p ∈ s.tasks, p.2.worker_id ≠ some wid) :
      SlotStep s (register_worker s wid hostname address port caps slots now).2
  | deleteWorker (s : Store) (wid : String) :
      SlotStep s (delete_worker s wid).2
  | heartbeat (s : Store) (wid : String) (now : Int) :
      SlotStep s (update_worker_heartbeat s wid now).2
  | assign (s : Store) (tid wid : String) (now : Int) :
      SlotStep s (assign_task_to_worker s tid wid now).2
  | unassign (s : Store) (tid : String) (now : Int) :
      SlotStep s (unassign_task_from_worker s tid now).2

/-- Reachability from the empty store by the slot-bookkeeping operations. -/
def SlotReachable (s : Store) : Prop :=
  Relation.ReflTransGen SlotStep Store.empty s

/-- Back-reference coherence: a task pointing at an existing worker is
recorded in that worker's `current_tasks`. -/
def backRefInv (s : Store) : Prop :=
  ∀ p ∈ s.tasks, ∀ wid, p.2.worker_id = some wid →
    ∀ w, lookupA wid s.workers = some w → p.1 ∈ w.current_tasks

/-- The inductive invariant: distinct dict keys (a property of Python
dicts), capacity, and back-reference coherence. -/
def storeInv (s : Store) : Prop :=
  (s.tasks.map Prod.fst).Nodup ∧ (s.workers.map Prod.fst).Nodup ∧
  capacityInv s ∧ backRefInv s

theorem lookupA_eraseA_self {α : Type} {k : String} {l : List (String × α)}
    (hnd : (l.map Prod.fst).Nodup) : lookupA k (eraseA k l) = none := by
  induction l with
  | nil => simp [eraseA, lookupA]
  | cons p rest ih =>
    obtain ⟨a, b⟩ := p
    simp only [List.map_cons, List.nodup_cons] at hnd
    by_cases ha : a = k
    · subst ha
      simp only [eraseA, if_pos rfl]
      rcases h : lookupA a rest with _ | v
      · exact h
      · exact absurd (List.mem_map_of_mem Prod.fst (lookupA_mem h)) hnd.1
    · simp [eraseA, ha, lookupA, ih hnd.2]

theorem assign_eq_noTask {s : Store} {tid : String} (wid : String) (now : Int)
    (h : lookupA tid s.tasks = none) :
    assign_task_to_worker s tid wid now = (false, s) := by
  rcases h2 : lookupA wid s.workers with _ | w <;>
    simp [assign_task_to_worker, h, h2]

theorem assign_eq_noWorker {s : Store} {tid wid : String} (now : Int)
    (h : lookupA wid s.workers = none) :
    assign_task_to_worker s tid wid now = (false, s) := by
  rcases h1 : lookupA tid s.tasks with _ | t <;>
    simp [assign_task_to_worker, h, h1]

theorem assign_eq_noCap {s : Store} {tid wid : String} {t : Task} {w : Worker}
    (now : Int) (h1 : lookupA tid s.tasks = some t)
    (h2 : lookupA wid s.workers = some w) (hcap : w.total_slots ≤ w.used_slots) :
    assign_task_to_worker s tid wid now = (false, s) := by
  simp [assign_task_to_worker, h1, h2, hcap]

theorem assign_eq_success {s : Store} {tid wid : String} {t : Task} {w : Worker}
    (now : Int) (h1 : lookupA tid s.tasks = some t)
    (h2 : lookupA wid s.workers = some w) (hcap : ¬ w.total_slots ≤ w.used_slots) :
    assign_task_to_worker s tid wid now =
      (true,
        { s with
          tasks := setA tid
            { t with worker_id := some wid, status := .queued, updated_at := now }
            s.tasks
          workers := setA wid
            { w with
              current_tasks := w.current_tasks ++ [tid]
              used_slots := w.used_slots + 1
              status := if w.total_slots ≤ w.used_slots + 1 then .busy else w.status }
            s.workers }) := by
  simp [assign_task_to_worker, h1, h2, hcap]

theorem unassign_eq_noTask {s : Store} {tid : String} (now : Int)
    (h : lookupA tid s.tasks = none) :
    unassign_task_from_worker s tid now = (false, s) := by
  simp [unassign_task_from_worker, h]

theorem unassign_eq_noWid {s : Store} {tid : String} {t : Task} (now : Int)
    (h : lookupA tid s.tasks = some t) (h2 : t.worker_id = none) :
    unassign_task_from_worker s tid now = (false, s) := by
  simp [unassign_task_from_worker, h, h2]

theorem unassign_eq_noWorker {s : Store} {tid wid : String} {t : Task} (now : Int)
    (h : lookupA tid s.tasks = some t) (h2 : t.worker_id = some wid)
    (h3 : lookupA wid s.workers = none) :
    unassign_task_from_worker s tid now =
      (true,
        { s with tasks := setA tid { t with worker_id := none, updated_at := now } s.tasks }) := by
  simp [unassign_task_from_worker, h, h2, h3]

theorem unassign_eq_worker {s : Store} {tid wid : String} {t : Task} {w : Worker}
    (now : Int) (h : lookupA tid s.tasks = some t) (h2 : t.worker_id = some wid)
    (h3 : lookupA wid s.workers = some w) :
    unassign_task_from_worker s tid now =
      (true,
        { s with
          tasks := setA tid { t with worker_id := none, updated_at := now } s.tasks
          workers := setA wid
            { w with
              current_tasks := w.current_tasks.erase tid
              used_slots := max 0 (w.used_slots - 1)
              status :=
                if w.status = .busy ∧ max 0 (w.used_slots - 1) < w.total_slots then .online
                else w.status }
            s.workers }) := by
  simp [unassign_task_from_worker, h, h2, h3]

theorem heartbeat_eq_none {s : Store} {wid : String} (now : Int)
    (h : lookupA wid s.workers = none) :
    update_worker_heartbeat s wid now = (none, s) := by
  simp [update_worker_heartbeat, h]

theorem heartbeat_eq_some {s : Store} {wid : String} {w : Worker} (now : Int)
    (h : lookupA wid s.workers = some w) :
    update_worker_heartbeat s wid now =
      (some { w with last_heartbeat := some now
                     status := if w.status = .offline then .online else w.status },
        { s with
          workers := setA wid
            { w with last_heartbeat := some now
                     status := if w.status = .offline then .online else w.status }
            s.workers }) := by
  simp [update_worker_heartbeat, h]

theorem delete_task_eq_none {s : Store} {tid : String}
    (h : lookupA tid s.tasks = none) : delete_task s tid = (false, s) := by
  simp [delete_task, h]

theorem delete_task_eq_some {s : Store} {tid : String} {t : Task}
    (h : lookupA tid s.tasks = some t) :
    delete_task s tid = (true, { s with tasks := eraseA tid s.tasks }) := by
  simp [delete_task, h]

theorem delete_worker_eq_none {s : Store} {wid : String}
    (h : lookupA wid s.workers = none) : delete_worker s wid = (false, s) := by
  simp [delete_worker, h]

theorem delete_worker_eq_some {s : Store} {wid : String} {w : Worker}
    (h : lookupA wid s.workers = some w) :
    delete_worker s wid = (true, { s with workers := eraseA wid s.workers }) := by
  simp [delete_worker, h]

theorem storeInv_create {s : Store} (hinv : storeInv s) (tid url : String)
    (options : TaskOptions) (now : Int) :
    storeInv (create_task s tid url options now).2 := by
  obtain ⟨hndT, hndW, hcap, href⟩ := hinv
  refine ⟨keys_setA_nodup hndT, hndW, hcap, ?_⟩
  intro p hp wid hwid w hw
  rcases mem_setA hndT hp with heq | ⟨hpold, _⟩
  · rw [heq] at hwid
    simp [create_task] at hwid
  · exact href p hpold wid hwid w hw

theorem storeInv_deleteTask {s : Store} (hinv : storeInv s) (tid : String) :
    storeInv (delete_task s tid).2 := by
  obtain ⟨hndT, hndW, hcap, href⟩ := hinv
  rcases h : lookupA tid s.tasks with _ | t
  · rw [delete_task_eq_none h]
    exact ⟨hndT, hndW, hcap, href⟩
  · rw [delete_task_eq_some h]
    refine ⟨keys_eraseA_nodup hndT, hndW, hcap, ?_⟩
    intro p hp wid hwid w hw
    exact href p (mem_eraseA hp) wid hwid w hw

theorem storeInv_register {s : Store} (hinv : storeInv s)
    (wid hostname address : String) (port : Int) (caps : List (String × String))
    (slots : Int) (now : Int) (hslots : 0 ≤ slots)
    (hfresh' : ∀ p ∈ s.tasks, p.2.worker_id ≠ some wid) :
    storeInv (register_worker s wid hostname address port caps slots now).2 := by
  obtain ⟨hndT, hndW, hcap, href⟩ := hinv
  refine ⟨hndT, keys_setA_nodup hndW, ?_, ?_⟩
  · intro p hp
    rcases mem_setA hndW hp with heq | ⟨hpold, _⟩
    · rw [heq]
      exact ⟨by simp [register_worker], by simpa [register_worker] using hslots⟩
    · exact hcap p hpold
  · intro p hp wid' hwid' w hw
    by_cases hww : wid' = wid
    · subst hww
      exact absurd hwid' (hfresh' p hp)
    · have hrw : lookupA wid' (register_worker s wid hostname address port caps
          slots now).2.workers = lookupA wid' s.workers := lookupA_setA_ne hww _ _
      rw [hrw] at hw
      exact href p hp wid' hwid' w hw

theorem storeInv_deleteWorker {s : Store} (hinv : storeInv s) (wid : String) :
    storeInv (delete_worker s wid).2 := by
  obtain ⟨hndT, hndW, hcap, href⟩ := hinv
  rcases h : lookupA wid s.workers with _ | w0
  · rw [delete_worker_eq_none h]
    exact ⟨hndT, hndW, hcap, href⟩
  · rw [delete_worker_eq_some h]
    refine ⟨hndT, keys_eraseA_nodup hndW, ?_, ?_⟩
    · intro p hp
      exact hcap p (mem_eraseA hp)
    · intro p hp wid' hwid' w hw
      by_cases hww : wid' = wid
      · subst hww
        rw [lookupA_eraseA_self hndW] at hw
        cases hw
      · rw [lookupA_eraseA_ne hww _] at hw
        exact href p hp wid' hwid' w hw

theorem storeInv_heartbeat {s : Store} (hinv : storeInv s) (wid : String)
    (now : Int) : storeInv (update_worker_heartbeat s wid now).2 := by
  obtain ⟨hndT, hndW, hcap, href⟩ := hinv
  rcases h : lookupA wid s.workers with _ | w0
  · rw [heartbeat_eq_none now h]
    exact ⟨hndT, hndW, hcap, href⟩
  · rw [heartbeat_eq_some now h]
    have hcap1 := hcap (wid, w0) (lookupA_mem h)
    have hwa : w0.used_slots = (w0.current_tasks.length : Int) := hcap1.1
    have hwb : w0.used_slots ≤ w0.total_slots := hcap1.2
    refine ⟨hndT, keys_setA_nodup hndW, ?_, ?_⟩
    · intro p hp
      rcases mem_setA hndW hp with heq | ⟨hpold, _⟩
      · rw [heq]
        exact ⟨hwa, hwb⟩
      · exact hcap p hpold
    · intro p hp wid' hwid' w hw
      by_cases hww : wid' = wid
      · subst hww
        rw [lookupA_setA_self, Option.some.injEq] at hw
        subst hw
        exact href p hp _ hwid' w0 h
      · rw [lookupA_setA_ne hww _ _] at hw
        exact href p hp wid' hwid' w hw

theorem storeInv_assign {s : Store} (hinv : storeInv s) (tid wid : String)
    (now : Int) : storeInv (assign_task_to_worker s tid wid now).2 := by
  obtain ⟨hndT, hndW, hcap, href⟩ := hinv
  rcases h1 : lookupA tid s.tasks with _ | t
  · rw [assign_eq_noTask wid now h1]
    exact ⟨hndT, hndW, hcap, href⟩
  rcases h2 : lookupA wid s.workers with _ | w0
  · rw [assign_eq_noWorker now h2]
    exact ⟨hndT, hndW, hcap, href⟩
  by_cases hcap0 : w0.total_slots ≤ w0.used_slots
  · rw [assign_eq_noCap now h1 h2 hcap0]
    exact ⟨hndT, hndW, hcap, href⟩
  rw [assign_eq_success now h1 h2 hcap0]
  have hcap1 := hcap (wid, w0) (lookupA_mem h2)
  have hwa : w0.used_slots = (w0.current_tasks.length : Int) := hcap1.1
  have hwb : w0.used_slots ≤ w0.total_slots := hcap1.2
  refine ⟨keys_setA_nodup hndT, keys_setA_nodup hndW, ?_, ?_⟩
  · intro p hp
    rcases mem_setA hndW hp with heq | ⟨hpold, _⟩
    · rw [heq]
      constructor
      · show w0.used_slots + 1 = ((w0.current_tasks ++ [tid]).length : Int)
        rw [List.length_append, List.length_singleton]
        push_cast
        omega
      · show w0.used_slots + 1 ≤ w0.total_slots
        omega
    · exact hcap p hpold
  · intro p hp wid' hwid' w hw
    rcases mem_setA hndT hp with heq | ⟨hpold, hpne⟩
    · rw [heq] at hwid' ⊢
      have hww : some wid = some wid' := hwid'
      rw [Option.some.injEq] at hww
      subst hww
      rw [lookupA_setA_self, Option.some.injEq] at hw
      subst hw
      show tid ∈ w0.current_tasks ++ [tid]
      simp
    · by_cases hww : wid' = wid
      · subst hww
        rw [lookupA_setA_self, Option.some.injEq] at hw
        subst hw
        show p.1 ∈ w0.current_tasks ++ [tid]
        exact List.mem_append_left _ (href p hpold _ hwid' w0 h2)
      · rw [lookupA_setA_ne hww _ _] at hw
        exact href p hpold wid' hwid' w hw

theorem storeInv_unassign {s : Store} (hinv : storeInv s) (tid : String)
    (now : Int) : storeInv (unassign_task_from_worker s tid now).2 := by
  obtain ⟨hndT, hndW, hcap, href⟩ := hinv
  rcases h1 : lookupA tid s.tasks with _ | t
  · rw [unassign_eq_noTask now h1]
    exact ⟨hndT, hndW, hcap, href⟩
  rcases h2 : t.worker_id with _ | wid0
  · rw [unassign_eq_noWid now h1 h2]
    exact ⟨hndT, hndW, hcap, href⟩
  rcases h3 : lookupA wid0 s.workers with _ | w0
  · rw [unassign_eq_noWorker now h1 h2 h3]
    refine ⟨keys_setA_nodup hndT, hndW, hcap, ?_⟩
    intro p hp wid' hwid' w hw
    rcases mem_setA hndT hp with heq | ⟨hpold, _⟩
    · rw [heq] at hwid'
      exact absurd hwid' (by simp)
    · exact href p hpold wid' hwid' w hw
  · rw [unassign_eq_worker now h1 h2 h3]
    have htin : tid ∈ w0.current_tasks := href (tid, t) (lookupA_mem h1) wid0 h2 w0 h3
    have hcap1 := hcap (wid0, w0) (lookupA_mem h3)
    have hwa : w0.used_slots = (w0.current_tasks.length : Int) := hcap1.1
    have hwb : w0.used_slots ≤ w0.total_slots := hcap1.2
    have hlen : 1 ≤ w0.current_tasks.length :=
      List.length_pos.2 (List.ne_nil_of_mem htin)
    refine ⟨keys_setA_nodup hndT, keys_setA_nodup hndW, ?_, ?_⟩
    · intro p hp
      rcases mem_setA hndW hp with heq | ⟨hpold, _⟩
      · rw [heq]
        constructor
        · show max 0 (w0.used_slots - 1) = ((w0.current_tasks.erase tid).length : Int)
          rw [List.length_erase_of_mem htin, Nat.cast_sub hlen, Nat.cast_one]
          omega
        · show max 0 (w0.used_slots - 1) ≤ w0.total_slots
          omega
      · exact hcap p hpold
    · intro p hp wid' hwid' w hw
      rcases mem_setA hndT hp with heq | ⟨hpold, hpne⟩
      · rw [heq] at hwid'
        exact absurd hwid' (by simp)
      · by_cases hww : wid' = wid0
        · subst hww
          rw [lookupA_setA_self, Option.some.injEq] at hw
          subst hw
          show p.1 ∈ w0.current_tasks.erase tid
          exact (List.mem_erase_of_ne hpne).2 (href p hpold _ hwid' w0 h3)
        · rw [lookupA_setA_ne hww _ _] at hw
          exact href p hpold wid' hwid' w hw

theorem storeInv_step {s s' : Store} (h : SlotStep s s') (hinv : storeInv s) :
    storeInv s' := by
  cases h with
  | createTask tid url options now _ => exact storeInv_create hinv tid url options now
  | deleteTask tid => exact storeInv_deleteTask hinv tid
  | register wid hostname address port caps slots now hslots _ hfresh' =>
    exact storeInv_register hinv wid hostname address port caps slots now hslots hfresh'
  | deleteWorker wid => exact storeInv_deleteWorker hinv wid
  | heartbeat wid now => exact storeInv_heartbeat hinv wid now
  | assign tid wid now => exact storeInv_assign hinv tid wid now
  | unassign tid now => exact storeInv_unassign hinv tid now

theorem storeInv_empty : storeInv Store.empty := by
  refine ⟨by simp [Store.empty], by simp [Store.empty], ?_, ?_⟩
  · intro p hp
    simp [Store.empty] at hp
  · intro p hp
    simp [Store.empty] at hp

theorem storeInv_reachable {s : Store} (h : SlotReachable s) : storeInv s := by
  induction h with
  | refl => exact storeInv_empty
  | tail _ hstep ih => exact storeInv_step hstep ih

/-- C1 amended: for every store reachable from the empty store by the
slot-bookkeeping operations (`create_task`, `delete_task`,
`register_worker` with nonnegative `total_slots`, `delete_worker`,
`update_worker_heartbeat`, `assign_task_to_worker`,
`unassign_task_from_worker`), every worker's `used_slots` equals the
number of ids in its `current_tasks` and is at most `total_slots`.  The
invariant is not preserved by `update_worker` or by the heartbeat /
worker_update frame handlers, which may overwrite `used_slots` or
`total_slots` directly (see the counterexample). -/
theorem capacity_invariant_of_slot_ops (s : Store) (h : SlotReachable s) :
    capacityInv s :=
  (storeInv_reachable h).2.2.1

/-- Witness for `capacity_invariant_of_slot_ops`: the store obtained by
registering a worker and assigning it a freshly created task satisfies
the capacity invariant. -/
theorem capacity_invariant_of_slot_ops_witness :
    capacityInv
      (assign_task_to_worker
        (create_task (register_worker Store.empty "w1" "h1" "10.0.0.1" 6800 [] 2 0).2
          "t1" "http://example.com/a" {} 1).2
        "t1" "w1" 2).2 :=
  capacity_invariant_of_slot_ops _
    (Relation.ReflTransGen.tail
      (Relation.ReflTransGen.tail
        (Relation.ReflTransGen.single
          (SlotStep.register Store.empty "w1" "h1" "10.0.0.1" 6800 [] 2 0
            (by decide) (by decide) (by decide)))
        (SlotStep.createTask _ "t1" "http://example.com/a" {} 1 (by decide)))
      (SlotStep.assign _ "t1" "w1" 2))

/-- A worker with two recorded tasks and a spare slot, currently
`offline` (the liveness monitor demotes workers without eagerly clearing
their tasks, so such states occur). -/
def wB1 : Worker :=
  { id := "w", hostname := "h", address := "a", port := 1, status := .offline
    current_tasks := ["t", "u"], total_slots := 3, used_slots := 2 }

/-- A task already recorded in `wB1.current_tasks`. -/
def tB1 : Task :=
  { id := "t", url := "http://example.com/t", created_at := 0, updated_at := 0
    status := .queued, worker_id := some "w" }

/-- Store for the first round-trip counterexample. -/
def sB1 : Store := { tasks := [("t", tB1)], workers := [("w", wB1)] }

/-- A worker whose `used_slots` was pushed negative by direct updates. -/
def wB2 : Worker :=
  { id := "w2", hostname := "h", address := "a", port := 1, status := .online
    current_tasks := [], total_slots := 5, used_slots := -1 }

/-- A task for the second round-trip counterexample. -/
def tB2 : Task :=
  { id := "t2", url := "http://example.com/t2", created_at := 0, updated_at := 0 }

/-- Store for the second round-trip counterexample. -/
def sB2 : Store := { tasks := [("t2", tB2)], workers := [("w2", wB2)] }

/-- C5 counterexample: an assign that succeeds followed immediately by
an unassign does not always restore the worker.  On `sB1` the task id
was already present in `current_tasks`, so append-then-remove-first
reorders the list (`["u","t"]` instead of `["t","u"]`), and the worker's
`offline` status comes back as `online` because the unassign flips the
`busy` set by the assign.  On `sB2` a negative `used_slots` is clamped
to 0 by the unassign instead of returning to its prior value. -/
theorem assign_unassign_not_roundtrip :
    ((assign_task_to_worker sB1 "t" "w" 10).1 = true
      ∧ lookupA "w"
          (unassign_task_from_worker (assign_task_to_worker sB1 "t" "w" 10).2 "t" 11).2.workers
        = some { wB1 with current_tasks := ["u", "t"], status := .online }
      ∧ (["u", "t"] : List String) ≠ wB1.current_tasks
      ∧ WorkerStatus.online ≠ wB1.status)
    ∧ ((assign_task_to_worker sB2 "t2" "w2" 10).1 = true
      ∧ (lookupA "w2"
          (unassign_task_from_worker (assign_task_to_worker sB2 "t2" "w2" 10).2 "t2" 11).2.workers).map
            Worker.used_slots = some 0
      ∧ (0 : Int) ≠ wB2.used_slots) := by
  decide

/-- C5 amended: when `assign(t,w)` succeeds and the worker's prior
`used_slots` was nonnegative, the immediate `unassign(t)` restores
`used_slots` exactly; it restores `current_tasks` provided the task id
was not already recorded there; and it restores the status provided the
worker was `online`, or was not `busy` and the assign did not fill its
last slot. -/
theorem assign_unassign_roundtrip (s : Store) (tid wid : String) (t : Task)
    (w : Worker) (now now' : Int)
    (ht : lookupA tid s.tasks = some t)
    (hw : lookupA wid s.workers = some w)
    (hcap : w.used_slots < w.total_slots)
    (hused : 0 ≤ w.used_slots) :
    ∃ w', lookupA wid
        (unassign_task_from_worker (assign_task_to_worker s tid wid now).2 tid now').2.workers
        = some w'
      ∧ w'.used_slots = w.used_slots
      ∧ (tid ∉ w.current_tasks → w'.current_tasks = w.current_tasks)
      ∧ ((w.status = .online ∨ (w.status ≠ .busy ∧ w.used_slots + 1 < w.total_slots)) →
          w'.status = w.status) := by
  have hcap' : ¬ w.total_slots ≤ w.used_slots := not_le.mpr hcap
  rw [assign_eq_success now ht hw hcap']
  have ht₁ : lookupA tid (setA tid
      { t with worker_id := some wid, status := .queued, updated_at := now } s.tasks) =
      some { t with worker_id := some wid, status := .queued, updated_at := now } :=
    lookupA_setA_self _ _ _
  have hw₁ : lookupA wid (setA wid
      { w with
        current_tasks := w.current_tasks ++ [tid]
        used_slots := w.used_slots + 1
        status := if w.total_slots ≤ w.used_slots + 1 then .busy else w.status }
      s.workers) =
      some { w with
             current_tasks := w.current_tasks ++ [tid]
             used_slots := w.used_slots + 1
             status := if w.total_slots ≤ w.used_slots + 1 then .busy else w.status } :=
    lookupA_setA_self _ _ _
  rw [unassign_eq_worker now' ht₁ rfl hw₁]
  refine ⟨_, lookupA_setA_self _ _ _, ?_, ?_, ?_⟩
  · show max 0 (w.used_slots + 1 - 1) = w.used_slots
    omega
  · intro hnot
    show (w.current_tasks ++ [tid]).erase tid = w.current_tasks
    rw [List.erase_append_right _ hnot, List.erase_cons_head, List.append_nil]
  · intro hst
    have hmax : max 0 (w.used_slots + 1 - 1) = w.used_slots := by omega
    show (if (if w.total_slots ≤ w.used_slots + 1 then WorkerStatus.busy else w.status)
            = WorkerStatus.busy ∧
            max 0 (w.used_slots + 1 - 1) < w.total_slots then WorkerStatus.online
          else if w.total_slots ≤ w.used_slots + 1 then WorkerStatus.busy else w.status)
          = w.status
    rw [hmax]
    by_cases hfull : w.total_slots ≤ w.used_slots + 1
    · rcases hst with hon | ⟨_, hlt⟩
      · rw [if_pos hfull, hon]
        simp [hcap]
      · omega
    · rcases hst with hon | ⟨hnb, _⟩
      · rw [if_neg hfull, hon]
        simp
      · rw [if_neg hfull, if_neg]
        simp only [not_and]
        intro hbusy
        exact absurd hbusy hnb

/-- Witness for `assign_unassign_roundtrip`: in the concrete store `sA`
(online worker with an empty slate), the round trip restores `w1`'s
`used_slots`, `current_tasks` and status. -/
theorem assign_unassign_roundtrip_witness :
    ∃ w', lookupA "w1"
        (unassign_task_from_worker (assign_task_to_worker sA "t1" "w1" 20).2 "t1" 21).2.workers
        = some w'
      ∧ w'.used_slots = wA.used_slots
      ∧ ("t1" ∉ wA.current_tasks → w'.current_tasks = wA.current_tasks)
      ∧ ((wA.status = .online ∨ (wA.status ≠ .busy ∧ wA.used_slots + 1 < wA.total_slots)) →
          w'.status = wA.status) :=
  assign_unassign_roundtrip sA "t1" "w1" tA wA 20 21 (by decide) (by decide)
    (by decide) (by decide)

/-- The statistics dict built by `database_migration.migrate_data`. -/
structure MigrationStats where
  tasks_migrated : Nat := 0
  workers_migrated : Nat := 0
  errors : Nat := 0
deriving DecidableEq

/-- One record copy performed by `migrate_data`, labelled by the source
record's id; the trace of these events makes the copy order observable. -/
inductive CopyEvent where
  | task (id : String)
  | worker (id : String)
deriving DecidableEq

/-- `True` for a worker-copy event. -/
def CopyEvent.isWorkerCopy : CopyEvent → Bool
  | .worker _ => true
  | .task _ => false

/-- `True` for a task-copy event. -/
def CopyEvent.isTaskCopy : CopyEvent → Bool
  | .task _ => true
  | .worker _ => false

/-- The order claim C8 states, rendered on the trace: some run of
worker copies followed only by task copies. -/
def workersFirst (log : List CopyEvent) : Bool :=
  (log.dropWhile CopyEvent.isWorkerCopy).all CopyEvent.isTaskCopy

/-- The body of `migrate_data`'s first loop (`for task in tasks`):
`target_db.create_task(url=task.url, options=task.options)`, then
`target_db.update_task(new_task.id, status=..., priority=...,
worker_id=..., aria2_gid=..., progress=..., download_speed=...,
error_message=..., result=...)`, then `stats["tasks_migrated"] += 1`.
The target's generated id is drawn from `taskIds` at the running count;
in the pure embedding no copy raises, so `errors` is untouched. -/
def migrate_task_step (taskIds : Nat → String) (now : Int)
    (acc : MigrationStats × Store × List CopyEvent) (task : Task) :
    MigrationStats × Store × List CopyEvent :=
  let created := create_task acc.2.1 (taskIds acc.1.tasks_migrated) task.url task.options now
  let tgt := (update_task created.2 created.1.id
    { status := some task.status
      priority := some task.priority
      worker_id := some task.worker_id
      aria2_gid := some task.aria2_gid
      progress := some task.progress
      download_speed := some task.download_speed
      error_message := some task.error_message
      result := some task.result } now).2
  ({ acc.1 with tasks_migrated := acc.1.tasks_migrated + 1 }, tgt,
    acc.2.2 ++ [CopyEvent.task task.id])

/-- The body of `migrate_data`'s second loop (`for worker in workers`):
`target_db.register_worker(...)` then `target_db.update_worker(new_worker.id,
status=..., connected_at=..., last_heartbeat=..., current_tasks=...,
used_slots=..., health_metrics=..., error_history=...,
performance_stats=...)`, then `stats["workers_migrated"] += 1`. -/
def migrate_worker_step (workerIds : Nat → String) (now : Int)
    (acc : MigrationStats × Store × List CopyEvent) (worker : Worker) :
    MigrationStats × Store × List CopyEvent :=
  let created := register_worker acc.2.1 (workerIds acc.1.workers_migrated)
    worker.hostname worker.address worker.port worker.capabilities
    worker.total_slots now
  let tgt := (update_worker created.2 created.1.id
    { status := some worker.status
      connected_at := some worker.connected_at
      last_heartbeat := some worker.last_heartbeat
      current_tasks := some worker.current_tasks
      used_slots := some worker.used_slots
      health_metrics := some worker.health_metrics
      error_history := some worker.error_history
      performance_stats := some worker.performance_stats }).2
  ({ acc.1 with workers_migrated := acc.1.workers_migrated + 1 }, tgt,
    acc.2.2 ++ [CopyEvent.worker worker.id])

/-- `database_migration.migrate_data(source_db, target_db)`: copy every
task of the source (`get_all_tasks`, dict order), then every worker
(`get_all_workers`), returning the statistics, the final target store,
and the trace of copies in the order performed. -/
def migrate_data (source target : Store) (taskIds workerIds : Nat → String)
    (now : Int) : MigrationStats × Store × List CopyEvent :=
  (source.workers.map Prod.snd).foldl (migrate_worker_step workerIds now)
    ((source.tasks.map Prod.snd).foldl (migrate_task_step taskIds now)
      ({}, target, []))

theorem migrate_task_fold (taskIds : Nat → String) (now : Int) :
    ∀ (l : List Task) (acc : MigrationStats × Store × List CopyEvent),
      (l.foldl (migrate_task_step taskIds now) acc).1.tasks_migrated
          = acc.1.tasks_migrated + l.length
      ∧ (l.foldl (migrate_task_step taskIds now) acc).1.workers_migrated
          = acc.1.workers_migrated
      ∧ (l.foldl (migrate_task_step taskIds now) acc).1.errors = acc.1.errors
      ∧ (l.foldl (migrate_task_step taskIds now) acc).2.2
          = acc.2.2 ++ l.map (fun t => CopyEvent.task t.id) := by
  intro l
  induction l with
  | nil =>
    intro acc
    simp
  | cons t rest ih =>
    intro acc
    obtain ⟨ih1, ih2, ih3, ih4⟩ := ih (migrate_task_step taskIds now acc t)
    rw [List.foldl_cons]
    refine ⟨?_, ?_, ?_, ?_⟩
    · rw [ih1]
      show acc.1.tasks_migrated + 1 + rest.length = acc.1.tasks_migrated + (rest.length + 1)
      omega
    · rw [ih2]
      exact rfl
    · rw [ih3]
      exact rfl
    · rw [ih4]
      show acc.2.2 ++ [CopyEvent.task t.id] ++ rest.map (fun x => CopyEvent.task x.id)
          = acc.2.2 ++ (CopyEvent.task t.id :: rest.map (fun x => CopyEvent.task x.id))
      rw [List.append_assoc]
      rfl

theorem migrate_worker_fold (workerIds : Nat → String) (now : Int) :
    ∀ (l : List Worker) (acc : MigrationStats × Store × List CopyEvent),
      (l.foldl (migrate_worker_step workerIds now) acc).1.workers_migrated
          = acc.1.workers_migrated + l.length
      ∧ (l.foldl (migrate_worker_step workerIds now) acc).1.tasks_migrated
          = acc.1.tasks_migrated
      ∧ (l.foldl (migrate_worker_step workerIds now) acc).1.errors = acc.1.errors
      ∧ (l.foldl (migrate_worker_step workerIds now) acc).2.2
          = acc.2.2 ++ l.map (fun w => CopyEvent.worker w.id) := by
  intro l
  induction l with
  | nil =>
    intro acc
    simp
  | cons w rest ih =>
    intro acc
    obtain ⟨ih1, ih2, ih3, ih4⟩ := ih (migrate_worker_step workerIds now acc w)
    rw [List.foldl_cons]
    refine ⟨?_, ?_, ?_, ?_⟩
    · rw [ih1]
      show acc.1.workers_migrated + 1 + rest.length = acc.1.workers_migrated + (rest.length + 1)
      omega
    · rw [ih2]
      exact rfl
    · rw [ih3]
      exact rfl
    · rw [ih4]
      show acc.2.2 ++ [CopyEvent.worker w.id] ++ rest.map (fun x => CopyEvent.worker x.id)
          = acc.2.2 ++ (CopyEvent.worker w.id :: rest.map (fun x => CopyEvent.worker x.id))
      rw [List.append_assoc]
      rfl

/-- The source store for the migration counterexample: one task and one
worker. -/
def sMig : Store :=
  { tasks := [("tM", { id := "tM", url := "http://example.com/m"
                       created_at := 0, updated_at := 0 })]
    workers := [("wM", { id := "wM", hostname := "h", address := "a", port := 1 })] }

/-- C8 counterexample: migrating a source holding one task and one
worker produces the copy trace task-then-worker — `migrate_data` copies
all tasks first and workers second, not workers first as claimed. -/
theorem migrate_data_order_counterexample :
    (migrate_data sMig Store.empty (fun _ => "nt") (fun _ => "nw") 0).2.2
      = [CopyEvent.task "tM", CopyEvent.worker "wM"]
    ∧ workersFirst [CopyEvent.task "tM", CopyEvent.worker "wM"] = false := by
  decide

/-- C8 amended: `migrate_data` copies all records from the source to the
target in the order tasks first, then workers — the trace is exactly the
source's task copies (in store order) followed by its worker copies —
and reports `tasks_migrated` equal to the number of source tasks,
`workers_migrated` equal to the number of source workers and `errors`
equal to 0 (in the embedding every copy succeeds; `errors` counts copies
that raised). -/
theorem migrate_data_spec (source target : Store)
    (taskIds workerIds : Nat → String) (now : Int) :
    (migrate_data source target taskIds workerIds now).1.tasks_migrated
        = source.tasks.length
    ∧ (migrate_data source target taskIds workerIds now).1.workers_migrated
        = source.workers.length
    ∧ (migrate_data source target taskIds workerIds now).1.errors = 0
    ∧ (migrate_data source target taskIds workerIds now).2.2
        = source.tasks.map (fun p => CopyEvent.task p.2.id)
          ++ source.workers.map (fun p => CopyEvent.worker p.2.id) := by
  obtain ⟨ht1, ht2, ht3, ht4⟩ :=
    migrate_task_fold taskIds now (source.tasks.map Prod.snd) ({}, target, [])
  obtain ⟨hw1, hw2, hw3, hw4⟩ :=
    migrate_worker_fold workerIds now (source.workers.map Prod.snd)
      ((source.tasks.map Prod.snd).foldl (migrate_task_step taskIds now) ({}, target, []))
  refine ⟨?_, ?_, ?_, ?_⟩
  · show (migrate_data source target taskIds workerIds now).1.tasks_migrated = _
    unfold migrate_data
    rw [hw2, ht1]
    simp
  · unfold migrate_data
    rw [hw1, ht2]
    simp
  · unfold migrate_data
    rw [hw3, ht3]
  · unfold migrate_data
    rw [hw4, ht4]
    simp only [List.nil_append, List.map_map, Function.comp_def]

/-- Modelled from the spec: `validate_url`, which `dispatcher/server.py`
pulls in from `common.utils`, is missing from `src/common/utils.py`, so
the module fails to load as shipped.  The spec requires "a valid
absolute http/https URL", so the validator accepts exactly the strings
with scheme `http://` or `https://` followed by a nonempty remainder. -/
def validate_url (url : String) : Bool :=
  (url.take 7 == "http://" && url.length > 7) ||
  (url.take 8 == "https://" && url.length > 8)

/-- `SQLiteDatabase.create_task(url, options, priority)`: like
`MemoryDatabase.create_task` (the interface signature declared by
`DatabaseInterface.create_task`) but accepting and persisting the task's
priority. -/
def sqlite_create_task (s : Store) (tid url : String) (options : TaskOptions)
    (priority : TaskPriority) (now : Int) : Task × Store :=
  let t : Task :=
    { id := tid, url := url, created_at := now, updated_at := now
      options := options, status := .pending, priority := priority }
  (t, { s with tasks := setA tid t s.tasks })

/-- The HTTP outcome of `POST /tasks` (`server.create_task`). -/
inductive CreateTaskResult where
  | badRequest
  | internalError
  | created (t : Task)
deriving DecidableEq

/-- The storage backend chosen by `database_factory.get_database`
(`memory` is the default `DatabaseType`). -/
inductive Backend where
  | memory
  | sqlite
deriving DecidableEq

/-- `server.create_task` (`POST /tasks`): reject an invalid URL with
HTTP 400 and no store change, otherwise call
`database.create_task(task_data.url, task_data.options,
task_data.priority)` with three positional arguments.
`SQLiteDatabase.create_task` accepts them and persists a `pending` task;
`MemoryDatabase.create_task(self, url, options)` does not accept a third
positional argument, so on the memory backend the call raises
`TypeError`, surfaced as HTTP 500 with no task created. -/
def create_task_endpoint (backend : Backend) (s : Store) (url : String)
    (options : TaskOptions) (priority : TaskPriority) (tid : String) (now : Int) :
    CreateTaskResult × Store :=
  if ¬ validate_url url then (.badRequest, s)
  else
    match backend with
    | .memory => (.internalError, s)
    | .sqlite =>
      let created := sqlite_create_task s tid url options priority now
      (.created created.1, created.2)

/-- C9 (code bug): at the failing input `POST /tasks` with the valid URL
`http://example.com/f.zip` on the in-memory backend — the default — the
handler's three-argument `create_task` call raises `TypeError`, so the
request ends in HTTP 500 and no task is created, although a valid URL
was supplied; on the SQLite backend the same request creates the
`pending` task, and an invalid URL is rejected with 400 leaving the
store unchanged on either backend. -/
theorem create_task_endpoint_memory_bug :
    validate_url "http://example.com/f.zip" = true
    ∧ create_task_endpoint .memory Store.empty "http://example.com/f.zip" {} .normal
        "task-1" 0 = (.internalError, Store.empty)
    ∧ (create_task_endpoint .sqlite Store.empty "http://example.com/f.zip" {} .normal
        "task-1" 0).1 =
        .created { id := "task-1", url := "http://example.com/f.zip"
                   created_at := 0, updated_at := 0
                   status := .pending, priority := .normal }
    ∧ create_task_endpoint .memory Store.empty "ftp://example.com/f.zip" {} .normal
        "task-1" 0 = (.badRequest, Store.empty)
    ∧ create_task_endpoint .sqlite Store.empty "not a url" {} .normal
        "task-1" 0 = (.badRequest, Store.empty) := by
  decide

end Aria
